import Mathlib

/-!
Verification of the session engine of the OnClaude repository.

The development shallowly embeds the JavaScript sources:
* `src/app/lib/pty-manager.js` — class `PTYManager` (session manager, bounded
  output buffer, spawn/kill lifecycle);
* `src/app/lib/option-parser.js` — `OPTION_PATTERNS` and `parseOptions`
  (the pattern library);
* `src/app/lib/watcher.js` — class `Watcher` (rolling-window trigger
  detector);
* `src/app/server.js` — WebSocket admission and per-message rate limiting,
  `handleClientMessage`, `startClaude`, and the PTY event handlers.

Machine integers are modelled as `Nat`/`Int` with explicit wrapping where the
JavaScript semantics demands it; JS strings are modelled as Lean `String` /
`List Char`; byte buffers as `List Nat`.
-/

set_option maxRecDepth 8000

namespace OnClaude

/-! ## Session manager: `PTYManager` (src/app/lib/pty-manager.js) -/

/-- State of a `PTYManager` instance.  `ptyAlive` models `this.pty !== null`;
the remaining fields are the JS fields of the class verbatim.  The buffer is a
byte list. -/
structure PTYState where
  ptyAlive : Bool
  bufferSize : Nat
  buffer : List Nat
  exitCode : Option Int
  running : Bool
  cols : Nat
  rows : Nat
deriving Repr, DecidableEq

/-- The constructor `new PTYManager(options)`: `pty = null`, empty buffer, no
exit code, not running.  (`bufferSize`, `cols`, `rows` come from the options
with defaults 100*1024, 120, 40 at the call sites.) -/
def initPTY (bufferSize cols rows : Nat) : PTYState :=
  { ptyAlive := false, bufferSize := bufferSize, buffer := [], exitCode := none,
    running := false, cols := cols, rows := rows }

/-- `PTYManager._appendToBuffer(data)`: concatenate, and if the result exceeds
`bufferSize` keep only the last `bufferSize` bytes
(`combined.slice(combined.length - this.bufferSize)`). -/
def appendToBuffer (bufferSize : Nat) (buffer data : List Nat) : List Nat :=
  let combined := buffer ++ data
  if bufferSize < combined.length then
    combined.drop (combined.length - bufferSize)
  else
    combined

/-- The `onData` handler: append the chunk to the bounded buffer (the `data`
event republication carries the same chunk unchanged). -/
def ptyDataEvent (s : PTYState) (data : List Nat) : PTYState :=
  { s with buffer := appendToBuffer s.bufferSize s.buffer data }

/-- Buffer contents after appending a whole sequence of output chunks to an
initially empty buffer. -/
def bufferAfter (bufferSize : Nat) (chunks : List (List Nat)) : List Nat :=
  chunks.foldl (appendToBuffer bufferSize) []

/-! ## PTY lifecycle (src/app/lib/pty-manager.js) -/

/-- `PTYManager.spawn(command, args, options)`.  The underlying `pty.spawn`
call is external; `spawnOk` says whether it succeeds.  If a session is already
running the method throws `PTY already running. Call kill() first.` before
touching any state; on success it sets `running`, clears the exit code and
resets the buffer. -/
def ptySpawn (p : PTYState) (spawnOk : Bool) : PTYState × Option String :=
  if p.running then
    (p, some "PTY already running. Call kill() first.")
  else if spawnOk then
    ({ p with ptyAlive := true, running := true, exitCode := none, buffer := [] },
     none)
  else
    (p, some "spawn failed")

/-- `PTYManager.kill(signal)`: if a pty exists and the session is running,
send the signal (returned as the second component) and set `running := false`
immediately; otherwise do nothing. -/
def ptyKill (p : PTYState) (signal : String) : PTYState × Option String :=
  if p.ptyAlive && p.running then
    ({ p with running := false }, some signal)
  else
    (p, none)

/-- The `onExit` callback registered in `spawn`: clear `running`, record the
exit code. -/
def ptyExit (p : PTYState) (exitCode : Int) : PTYState :=
  { p with running := false, exitCode := some exitCode }

/-- `PTYManager.resize(cols, rows)`: always update the stored geometry (the
propagation to the live pty is an external side effect). -/
def ptyResize (p : PTYState) (cols rows : Nat) : PTYState :=
  { p with cols := cols, rows := rows }

/-- `PTYManager.write(data)`: `none` models the thrown `PTY not running`
error; `some ()` a successful forward to the subprocess. -/
def ptyWrite (p : PTYState) : Option Unit :=
  if p.ptyAlive && p.running then some () else none

/-! ## Pattern library (src/app/lib/option-parser.js)

Text is modelled as `List Char`.  The JS regexes of `OPTION_PATTERNS` are
compiled by hand into deterministic scanners; each scanner's doc comment
names the regex it embeds.  All the regexes are backtracking-free on their
alphabets (a greedy `\d+`/`\s+`/`[a-z]+` run is always followed by a character
class disjoint from the run), so leftmost-match scanning with maximal runs
reproduces the JS semantics exactly. -/

/-- JS `\s` (the whitespace class used by `\s+` and `String.trim`), restricted
to the characters that can occur in this code base: ASCII whitespace plus
NBSP and the BOM. -/
def isSpaceJS (c : Char) : Bool :=
  c = ' ' || c = '\t' || c = '\n' || c = '\r' || c = '\x0b' || c = '\x0c' ||
    c = Char.ofNat 160 || c = Char.ofNat 65279

/-- `String.prototype.trim`: strip JS whitespace from both ends. -/
def trimJS (l : List Char) : List Char :=
  ((l.dropWhile isSpaceJS).reverse.dropWhile isSpaceJS).reverse

/-- `Array.prototype.slice(-n)`: the last `n` elements (everything when the
list is shorter). -/
def takeLast (n : Nat) (l : List α) : List α :=
  l.drop (l.length - n)

/-- Case-sensitive substring test (`String.prototype.includes`). -/
def containsSub : List Char → List Char → Bool
  | [], pat => pat.isEmpty
  | h :: t, pat => pat.isPrefixOf (h :: t) || containsSub t pat

/-- Substring test under the `i` regex flag: lower-case both sides first. -/
def containsCI (hay pat : List Char) : Bool :=
  containsSub (hay.map Char.toLower) (pat.map Char.toLower)

/-- Recognizer of the `yes-no` pattern,
`/\(y\/n\)|\[y\/n\]|\[Y\/n\]|\[y\/N\]/i`: under `i` the three bracket
alternatives coincide, so the regex tests for `(y/n)` or `[y/n]`
case-insensitively. -/
def yesNoTest (t : List Char) : Bool :=
  containsCI t "(y/n)".data || containsCI t "[y/n]".data

/-- Recognizer of the `yes-no-always` pattern, `/\(y\/n\/a(?:lways)?\)/i`. -/
def yesNoAlwaysTest (t : List Char) : Bool :=
  containsCI t "(y/n/a)".data || containsCI t "(y/n/always)".data

/-- One attempt of `press\s+enter` (case already lowered) at the head of the
list: literal `press`, one or more whitespace, literal `enter`. -/
def pressEnterAt (l : List Char) : Bool :=
  "press".data.isPrefixOf l &&
    (let r := l.drop 5
     let ws := r.takeWhile isSpaceJS
     !ws.isEmpty && "enter".data.isPrefixOf (r.drop ws.length))

/-- Leftmost search for `press\s+enter` over a lowered text. -/
def pressEnterScan : List Char → Bool
  | [] => false
  | c :: t => pressEnterAt (c :: t) || pressEnterScan t

/-- Recognizer of the `press-enter` pattern,
`/press\s+enter|Enter to (?:confirm|select)/i`. -/
def pressEnterTest (t : List Char) : Bool :=
  pressEnterScan (t.map Char.toLower) ||
    containsCI t "enter to confirm".data || containsCI t "enter to select".data

/-- Decimal value of a digit string (JS `parseInt` on the captured `\d+`;
exact arithmetic only ever compared against 1 and 20). -/
def digitsToNat (ds : List Char) : Nat :=
  ds.foldl (fun a c => a * 10 + (c.toNat - 48)) 0

/-- One attempt of `(\d+)\.\s+([A-Z])` at the head of the list: a maximal
nonempty digit run, a period, a maximal nonempty whitespace run, an uppercase
letter.  Returns the digit capture. -/
def tryNumAt (l : List Char) : Option (List Char) :=
  if (l.takeWhile Char.isDigit).isEmpty then none
  else
    match l.drop (l.takeWhile Char.isDigit).length with
    | '.' :: r2 =>
      if (r2.takeWhile isSpaceJS).isEmpty then none
      else
        match r2.drop (r2.takeWhile isSpaceJS).length with
        | u :: _ =>
          if u.isUpper then some (l.takeWhile Char.isDigit) else none
        | [] => none
    | _ => none

/-- Leftmost match of `(\d+)\.\s+([A-Z])` (`String.prototype.match` without
the `g` flag returns the first match). -/
def numFirstMatch : List Char → Option (List Char)
  | [] => none
  | c :: t =>
    match tryNumAt (c :: t) with
    | some d => some d
    | none => numFirstMatch t

/-- The per-line loop of the `numbered-options` extractor: for each line take
the first match, and record the digit string if it is new and its value lies
in 1..20 (`!found.has(num) && parseInt(num) >= 1 && parseInt(num) <= 20`).
Insertion order is kept, as in the JS `Map`. -/
def collectNums (lines : List (List Char)) : List (List Char) :=
  lines.foldl
    (fun acc line =>
      match numFirstMatch line with
      | some num =>
        if !acc.contains num && 1 ≤ digitsToNat num && digitsToNat num ≤ 20 then
          acc ++ [num]
        else acc
      | none => acc)
    []

/-- Stable insertion of a later element into a value-sorted list: `x` goes
after every element of value `≤` its own. -/
def insertByVal (x : List Char) : List (List Char) → List (List Char)
  | [] => [x]
  | y :: ys =>
    if digitsToNat y ≤ digitsToNat x then y :: insertByVal x ys
    else x :: y :: ys

/-- `Array.prototype.sort((a, b) => parseInt(a) - parseInt(b))`: a stable
ascending sort by numeric value (V8's sort is stable). -/
def sortNums (l : List (List Char)) : List (List Char) :=
  l.foldl (fun acc x => insertByVal x acc) []

/-- One labelled choice (`{ label, value }`). -/
structure Choice where
  label : String
  value : String
deriving Repr, DecidableEq

/-- The `numbered-options` extractor: split into lines, collect the distinct
in-range first matches, sort ascending, make each number its own label and
value; `null` unless at least two options. -/
def numberedExtract (t : List Char) : Option (List Choice) :=
  if 2 ≤ ((sortNums (collectNums (List.splitOn '\n' t))).map
      (fun num => Choice.mk num.asString num.asString)).length then
    some ((sortNums (collectNums (List.splitOn '\n' t))).map
      (fun num => Choice.mk num.asString num.asString))
  else none

/-- Recognizer of the `numbered-options` pattern, `/\d+\.\s+[A-Z]/`, over the
whole window text (`\s` may cross line breaks here). -/
def numberedTest (t : List Char) : Bool :=
  (numFirstMatch t).isSome

/-- The repeated-`exec` loop of the `letter-in-parens` extractor,
`/\(([a-z])\)([a-z]+)/gi`: scan left to right; each occurrence of
`(letter)letters` yields `(label, value) = (upper letter ++ letters, lower
letter)` and the scan resumes after the match; on failure the scan advances
one character. -/
def lettersScanF : Nat → List Char → List (List Char × List Char)
  | 0, _ => []
  | _, [] => []
  | fuel + 1, '(' :: c :: ')' :: rest =>
    if c.isAlpha then
      match rest.takeWhile Char.isAlpha with
      | [] => lettersScanF fuel (c :: ')' :: rest)
      | l0 :: ls =>
        (c.toUpper :: l0 :: ls, [c.toLower]) ::
          lettersScanF fuel (rest.drop (l0 :: ls).length)
    else lettersScanF fuel (c :: ')' :: rest)
  | fuel + 1, _ :: t => lettersScanF fuel t

/-- The scan at full fuel: the fuel only bounds the recursion depth and each
step consumes at least one character, so `l.length` fuel never runs out. -/
def lettersScan (l : List Char) : List (List Char × List Char) :=
  lettersScanF l.length l

/-- The `letter-in-parens` extractor: all scanned occurrences, `null` unless
at least two. -/
def lettersExtract (t : List Char) : Option (List Choice) :=
  let found := lettersScan t
  let options := found.map (fun p => Choice.mk p.1.asString p.2.asString)
  if 2 ≤ options.length then some options else none

/-- Result of `parseOptions`: the fixed prompt, the extracted choices, and the
name of the winning pattern. -/
structure ParseResult where
  prompt : String
  options : List Choice
  patternName : String
deriving Repr, DecidableEq

/-- `parseOptions(text)` on the character list: reject empty input (`!text`),
trim, keep the last 50 lines, then try the patterns by descending priority —
`numbered-options` (15), `yes-no-always` (11), `yes-no` (10), `press-enter`
(9), `letter-in-parens` (8).  A pattern whose recognizer matches but whose
extractor returns `null` falls through to the next pattern.  `recentLines` is
the JS variable of the same name: trim, split, keep the last 50 lines,
re-join. -/
def recentLines (text : List Char) : List Char :=
  List.intercalate ['\n'] (takeLast 50 (List.splitOn '\n' (trimJS text)))

def parseOptionsL (text : List Char) : Option ParseResult :=
  if text.isEmpty then none
  else
    match (if numberedTest (recentLines text) then
             numberedExtract (recentLines text) else none) with
    | some opts => some ⟨"Select option:", opts, "numbered-options"⟩
    | none =>
      if yesNoAlwaysTest (recentLines text) then
        some ⟨"Select option:",
          [⟨"Yes", "y"⟩, ⟨"No", "n"⟩, ⟨"Always", "a"⟩], "yes-no-always"⟩
      else if yesNoTest (recentLines text) then
        some ⟨"Select option:", [⟨"Yes", "y"⟩, ⟨"No", "n"⟩], "yes-no"⟩
      else if pressEnterTest (recentLines text) then
        some ⟨"Select option:", [⟨"OK", ""⟩], "press-enter"⟩
      else
        match (if lettersScan (recentLines text) ≠ [] then
                 lettersExtract (recentLines text) else none) with
        | some opts => some ⟨"Select option:", opts, "letter-in-parens"⟩
        | none => none

/-- `parseOptions` on Lean strings. -/
def parseOptions (text : String) : Option ParseResult :=
  parseOptionsL text.data
/-! ## Trigger detector (src/app/lib/watcher.js) -/

/-- Modelled from the spec: the external `strip-ansi` dependency ("strip
terminal control sequences from the chunk").  Deletes ESC/CSI-introduced
control sequences: `ESC [ params final`, `ESC ] ... BEL`, and `ESC x` for any
other `x`.  No claim below depends on the fine behaviour of this stripper.
`AnsiMode` is the scanner state: ordinary text, just after ESC, inside a CSI
sequence, inside an OSC sequence. -/
inductive AnsiMode where
  | normal
  | sawEsc
  | inCsi
  | inOsc
deriving Repr, DecidableEq

def stripAnsiGo : AnsiMode → List Char → List Char
  | _, [] => []
  | AnsiMode.normal, c :: t =>
    if c = '\x1b' then stripAnsiGo AnsiMode.sawEsc t
    else c :: stripAnsiGo AnsiMode.normal t
  | AnsiMode.sawEsc, c :: t =>
    if c = '[' then stripAnsiGo AnsiMode.inCsi t
    else if c = ']' then stripAnsiGo AnsiMode.inOsc t
    else stripAnsiGo AnsiMode.normal t
  | AnsiMode.inCsi, c :: t =>
    if '@' ≤ c && c ≤ '~' then stripAnsiGo AnsiMode.normal t
    else stripAnsiGo AnsiMode.inCsi t
  | AnsiMode.inOsc, c :: t =>
    if c = '\x07' then stripAnsiGo AnsiMode.normal t
    else stripAnsiGo AnsiMode.inOsc t

def stripAnsiChars (l : List Char) : List Char :=
  stripAnsiGo AnsiMode.normal l

/-- `Watcher.stripAnsi(text)`: cap the input at its last 100000 characters
(`text.slice(-100000)`), then strip control sequences. -/
def watcherStripAnsi (text : List Char) : List Char :=
  stripAnsiChars
    (if 100000 < text.length then text.drop (text.length - 100000) else text)

/-- JS `ToInt32`: reduce an integer to the signed 32-bit range. -/
def toInt32 (x : Int) : Int :=
  let m := x % 4294967296
  if m < 2147483648 then m else m - 4294967296

/-- One iteration of `Watcher._hashPrompt`'s loop:
`hash = (hash << 5) - hash + char; hash = hash & hash`.  The shift operates on
the 32-bit value; the subtraction and addition are exact (double) arithmetic;
`hash & hash` truncates back to 32 bits. -/
def hashStep (h : Int) (c : Nat) : Int :=
  toInt32 (toInt32 (h * 32) - h + c)

/-- Hexadecimal rendering of `hash.toString(16)` (lowercase digits, a leading
minus for negative values). -/
def toString16 (h : Int) : String :=
  if h < 0 then "-" ++ (Nat.toDigits 16 (-h).toNat).asString
  else (Nat.toDigits 16 h.toNat).asString

/-- `Watcher._hashPrompt(prompt)`: fold the step over the character codes
(UTF-16 units; identical to code points on the BMP text used here) starting
from 0, then render in base 16. -/
def hashPrompt (prompt : String) : String :=
  toString16 (prompt.data.foldl (fun h c => hashStep h c.toNat) 0)

/-- State of a `Watcher` instance.  `lines` is the rolling window;
`lastTrigger` the held trigger's fingerprint (`null` when idle). -/
structure WatcherState where
  maxLines : Nat
  lines : List (List Char)
  lastTrigger : Option String
  lastTriggerTime : Nat
deriving Repr, DecidableEq

/-- `new Watcher(options)` (the server passes no `maxLines`, so 50). -/
def initWatcher (maxLines : Nat) : WatcherState :=
  { maxLines := maxLines, lines := [], lastTrigger := none, lastTriggerTime := 0 }

/-- `Watcher.reset()`: clear the window, the held fingerprint and the
timestamp. -/
def watcherReset (s : WatcherState) : WatcherState :=
  { s with lines := [], lastTrigger := none, lastTriggerTime := 0 }

/-- The window-building half of `Watcher.process`: strip, split into lines,
append the lines with nonempty trim, keep the last `maxLines` lines. -/
def watcherLinesAfter (s : WatcherState) (data : String) : List (List Char) :=
  let stripped := watcherStripAnsi data.data
  let lines1 :=
    s.lines ++ (List.splitOn '\n' stripped).filter (fun l => !(trimJS l).isEmpty)
  if s.maxLines < lines1.length then
    lines1.drop (lines1.length - s.maxLines)
  else lines1

/-- `Watcher.process(data)`: rebuild the window, run the pattern library over
the joined window text, and if a match's fingerprint differs from the held one
(`triggerHash !== this.lastTrigger`, where `lastTrigger` may be `null`) store
it and return the trigger event; otherwise return `null`.  `now` stands for
`Date.now()`. -/
def watcherProcess (s : WatcherState) (data : String) (now : Nat) :
    WatcherState × Option ParseResult :=
  match parseOptionsL (List.intercalate ['\n'] (watcherLinesAfter s data)) with
  | some r =>
    if s.lastTrigger ≠ some (hashPrompt r.prompt) then
      ({ s with lines := watcherLinesAfter s data,
                lastTrigger := some (hashPrompt r.prompt),
                lastTriggerTime := now }, some r)
    else
      ({ s with lines := watcherLinesAfter s data }, none)
  | none => ({ s with lines := watcherLinesAfter s data }, none)

/-- Feed the same chunk `n` times through `process`, counting the emitted
trigger events. -/
def feedCount (s : WatcherState) (data : String) : Nat → WatcherState × Nat
  | 0 => (s, 0)
  | n + 1 =>
    let step := watcherProcess s data 0
    let rest := feedCount step.1 data n
    (rest.1, (if step.2.isSome then 1 else 0) + rest.2)

/-! ## Broadcast / access layer (src/app/server.js) -/

/-- `MAX_VIOLATIONS`: disconnect after this many rate violations. -/
def MAX_VIOLATIONS : Nat := 5

/-- `BAN_DURATION`: five minutes, in milliseconds. -/
def BAN_DURATION : Nat := 300000

/-- `WS_RATE_LIMIT`: max new connections per IP per window. -/
def WS_RATE_LIMIT : Nat := 10

/-- `WS_WINDOW`: one minute, in milliseconds. -/
def WS_WINDOW : Nat := 60000

/-- `MESSAGE_RATE_LIMIT`: messages per second per connection. -/
def MESSAGE_RATE_LIMIT : Nat := 30

/-- `MESSAGE_WINDOW`: one second, in milliseconds. -/
def MESSAGE_WINDOW : Nat := 1000

/-- Per-connection abuse state (`ws.violations`, `ws.messageTimestamps`). -/
structure ConnState where
  violations : Nat
  messageTimestamps : List Nat
deriving Repr, DecidableEq

/-- Global abuse state: the `bannedIps` map (IP to ban expiry) and the
`wsConnections` map (IP to recent connection timestamps).  Maps are modelled
as association lists where a prepended entry shadows older ones. -/
structure AbuseState where
  bannedIps : List (String × Nat)
  wsConnections : List (String × List Nat)
deriving Repr, DecidableEq

/-- Outcome of the `ws.on('message')` handler for one inbound message. -/
inductive MsgAction where
  | closed (code : Nat)
  | dropped
  | handled
deriving Repr, DecidableEq

/-- The `ws.on('message')` handler up to `handleClientMessage`: oversize check
(close 1009), then the sliding-window rate check — at the ceiling the
violation counter is bumped and the message dropped, and on the
`MAX_VIOLATIONS`-th violation the IP is banned for `BAN_DURATION` and the
connection closed (4429); below the ceiling the timestamp is recorded and the
message handled. -/
def wsMessageStep (g : AbuseState) (c : ConnState) (ip : String) (now : Nat)
    (size : Nat) : AbuseState × ConnState × MsgAction :=
  if 65536 < size then (g, c, MsgAction.closed 1009)
  else
    let ts := c.messageTimestamps.filter (fun t => now - t < MESSAGE_WINDOW)
    if MESSAGE_RATE_LIMIT ≤ ts.length then
      let c1 : ConnState := ⟨c.violations + 1, ts⟩
      if MAX_VIOLATIONS ≤ c1.violations then
        ({ g with bannedIps := (ip, now + BAN_DURATION) :: g.bannedIps }, c1,
         MsgAction.closed 4429)
      else (g, c1, MsgAction.dropped)
    else (g, { c with messageTimestamps := ts ++ [now] }, MsgAction.handled)

/-- Outcome of the `wss.on('connection')` admission checks. -/
inductive ConnResult where
  | rejected (code : Nat)
  | admitted (c : ConnState)
deriving Repr, DecidableEq

/-- The admission tail after the ban check: session-token check (close 4001),
per-IP connection-rate check over `WS_WINDOW` (close 4029), then record the
connection and initialize its violation tracking. -/
def wsAdmit (g : AbuseState) (ip : String) (now : Nat) (tokenValid : Bool) :
    AbuseState × ConnResult :=
  if !tokenValid then (g, ConnResult.rejected 4001)
  else
    let conns := ((g.wsConnections.lookup ip).getD []).filter
      (fun t => now - t < WS_WINDOW)
    if WS_RATE_LIMIT ≤ conns.length then (g, ConnResult.rejected 4029)
    else
      ({ g with wsConnections := (ip, conns ++ [now]) :: g.wsConnections },
       ConnResult.admitted ⟨0, []⟩)

/-- The `wss.on('connection')` handler: reject a banned IP outright
(`bannedIps.has(ip) && Date.now() < bannedIps.get(ip)`, close 4403), then run
the admission tail. -/
def wsConnectionStep (g : AbuseState) (ip : String) (now : Nat)
    (tokenValid : Bool) : AbuseState × ConnResult :=
  match g.bannedIps.lookup ip with
  | some expiry =>
    if now < expiry then (g, ConnResult.rejected 4403)
    else wsAdmit g ip now tokenValid
  | none => wsAdmit g ip now tokenValid

/-- The periodic ban sweep: drop entries whose expiry has passed
(`now > expiry`). -/
def banSweep (g : AbuseState) (now : Nat) : AbuseState :=
  { g with bannedIps := g.bannedIps.filter (fun p => now ≤ p.2) }

/-! ## Server glue (src/app/server.js): input handling, start, exit -/

/-- Messages broadcast to clients, as far as the claims need them. -/
inductive OutMsg where
  | hideOptions
  | exitEv (exitCode : Int) (signal : Option Nat)
  | errorMsg (text : String)
  | started
deriving Repr, DecidableEq

/-- Engine-side server state: the PTY manager, the watcher, the broadcast log,
the log of writes forwarded to the subprocess, and the `themeSent` flag.
`debounceMemory` is modelled from the spec: the Notification Dispatch's
de-bounce memory (`lib/notifier.js` is not in the sources); `true` means a
recent notification is remembered, and `notifier.resetDebounce()` clears
it. -/
structure SrvState where
  pty : PTYState
  watcher : WatcherState
  debounceMemory : Bool
  broadcasts : List OutMsg
  ptyWrites : List String
  themeSent : Bool
deriving Repr, DecidableEq

/-- `handleClientMessage` case `'input'`: while the session runs, forward the
data to the PTY; if the data contains a carriage return
(`data.data === '\r' || data.data.includes('\r')`), reset the watcher and
broadcast `hideOptions`; in every running case clear the notification
debounce.  When the session is not running the input is ignored. -/
def handleInput (s : SrvState) (data : String) : SrvState :=
  if s.pty.running then
    let s1 := { s with ptyWrites := s.ptyWrites ++ [data] }
    let s2 :=
      if data.data.contains '\r' then
        { s1 with watcher := watcherReset s1.watcher,
                  broadcasts := s1.broadcasts ++ [OutMsg.hideOptions] }
      else s1
    { s2 with debounceMemory := false }
  else s

/-- The subprocess exit notification: the `onExit` callback inside
`PTYManager.spawn` (clear `running`, record the code) followed by the server's
`ptyManager.on('exit')` listener (reset `themeSent`, broadcast the exit
event).  Neither touches the watcher. -/
def onPtyExit (s : SrvState) (exitCode : Int) (signal : Option Nat) : SrvState :=
  { s with pty := ptyExit s.pty exitCode, themeSent := false,
           broadcasts := s.broadcasts ++ [OutMsg.exitEv exitCode signal] }

/-- `startClaude(extraArgs, customCwd)`: reject with a broadcast error while a
session is running; otherwise reset the watcher and spawn.  Argument
validation, working-directory normalization, directory creation and mock mode
are elided — none of them reads or writes the session state modelled here, and
the spawn outcome is abstracted by `spawnOk` as in `ptySpawn`. -/
def startClaude (s : SrvState) (spawnOk : Bool) : SrvState :=
  if s.pty.running then
    { s with broadcasts :=
        s.broadcasts ++ [OutMsg.errorMsg "Claude Code is already running"] }
  else
    let s1 := { s with watcher := watcherReset s.watcher }
    match ptySpawn s1.pty spawnOk with
    | (p, none) =>
      { s1 with pty := p, broadcasts := s1.broadcasts ++ [OutMsg.started] }
    | (p, some e) =>
      { s1 with pty := p, broadcasts :=
          s1.broadcasts ++ [OutMsg.errorMsg ("Failed to start: " ++ e)] }
/-! ## Claim-described numbered matcher (for claim C4)

The spec sentence behind C4 describes the numbered matcher as looking for a
LEADING integer 1-20 followed by whitespace and an uppercase letter, with no
period.  The following pair of definitions formalizes that description
verbatim, to be compared against the source-derived `numberedExtract`. -/

/-- The claim's line scan: a leading integer with value 1..20, then one or
more whitespace characters, then an uppercase letter. -/
def claimLineNum (line : List Char) : Option (List Char) :=
  if (line.takeWhile Char.isDigit).isEmpty then none
  else if 1 ≤ digitsToNat (line.takeWhile Char.isDigit) ∧
      digitsToNat (line.takeWhile Char.isDigit) ≤ 20 then
    match line.drop (line.takeWhile Char.isDigit).length with
    | r =>
      if (r.takeWhile isSpaceJS).isEmpty then none
      else
        match r.drop (r.takeWhile isSpaceJS).length with
        | u :: _ =>
          if u.isUpper then some (line.takeWhile Char.isDigit) else none
        | [] => none
  else none

/-- The claim's matcher: distinct leading numbers across the window, sorted
ascending, each its own label and value, at least two to qualify. -/
def claimNumberedExtract (t : List Char) : Option (List Choice) :=
  if 2 ≤ ((sortNums ((List.splitOn '\n' t).foldl
      (fun acc line =>
        match claimLineNum line with
        | some num => if !acc.contains num then acc ++ [num] else acc
        | none => acc) [])).map
        (fun num => Choice.mk num.asString num.asString)).length then
    some ((sortNums ((List.splitOn '\n' t).foldl
      (fun acc line =>
        match claimLineNum line with
        | some num => if !acc.contains num then acc ++ [num] else acc
        | none => acc) [])).map
        (fun num => Choice.mk num.asString num.asString))
  else none

/-- One append step preserves the "buffer is the maximal suffix of the
concatenation so far, capped at `cap`" invariant. -/
lemma appendToBuffer_drop (cap : Nat) (l d : List Nat) :
    appendToBuffer cap (l.drop (l.length - cap)) d =
      (l ++ d).drop ((l ++ d).length - cap) := by
  unfold appendToBuffer
  dsimp only
  rcases le_or_lt l.length cap with h | h
  · have h0 : l.length - cap = 0 := Nat.sub_eq_zero_of_le h
    rw [h0, List.drop_zero]
    split
    · rfl
    · rename_i hc
      have : (l ++ d).length - cap = 0 := by
        simp only [List.length_append] at hc ⊢
        omega
      rw [this, List.drop_zero]
  · have hlen : (l.drop (l.length - cap)).length = cap := by
      rw [List.length_drop]; omega
    split
    · rename_i hc
      rw [List.length_append, hlen] at hc
      rw [List.length_append, hlen]
      have hdpos : 0 < d.length := by omega
      have harith : cap + d.length - cap = d.length := by omega
      rw [harith]
      rcases le_or_lt d.length cap with hd | hd
      · have h1 : d.length ≤ (l.drop (l.length - cap)).length := by omega
        rw [List.drop_append_of_le_length h1, List.drop_drop]
        have h2 : (l ++ d).length - cap ≤ l.length := by
          rw [List.length_append]; omega
        rw [List.drop_append_of_le_length h2]
        congr 2
        rw [List.length_append]
        omega
      · have h1 : d.length = (l.drop (l.length - cap)).length + (d.length - cap) := by
          omega
        rw [h1, List.drop_append]
        have h2 : (l ++ d).length - cap = l.length + (d.length - cap) := by
          rw [List.length_append]; omega
        rw [h2, List.drop_append]
    · rename_i hc
      rw [List.length_append, hlen] at hc
      have hd0 : d.length = 0 := by omega
      have : d = [] := List.length_eq_zero.mp hd0
      subst this
      simp only [List.append_nil]

/-- Folding the append step over a chunk list, starting from the capped suffix
of a previous history `l`, yields the capped suffix of the full history. -/
lemma bufferAfter_general (cap : Nat) (chunks : List (List Nat)) :
    ∀ l : List Nat,
      chunks.foldl (appendToBuffer cap) (l.drop (l.length - cap)) =
        (l ++ chunks.flatten).drop ((l ++ chunks.flatten).length - cap) := by
  induction chunks with
  | nil => intro l; simp
  | cons c cs ih =>
    intro l
    rw [List.foldl_cons, appendToBuffer_drop, ih (l ++ c)]
    simp [List.append_assoc]

/-- Claim C1: appending any sequence of output chunks to the session's output
buffer leaves the buffer equal to the concatenation of the chunks while that
concatenation fits in the configured capacity; once the concatenation exceeds
the capacity the buffer equals the suffix of the concatenation of length
exactly the capacity, so the buffer length never exceeds the capacity. -/
theorem buffer_is_capped_suffix (cap : Nat) (chunks : List (List Nat)) :
    (chunks.flatten.length ≤ cap → bufferAfter cap chunks = chunks.flatten) ∧
    (cap < chunks.flatten.length →
      bufferAfter cap chunks = chunks.flatten.drop (chunks.flatten.length - cap) ∧
      (bufferAfter cap chunks).length = cap) ∧
    (bufferAfter cap chunks).length ≤ cap := by
  have key : bufferAfter cap chunks =
      chunks.flatten.drop (chunks.flatten.length - cap) := by
    have := bufferAfter_general cap chunks []
    simpa [bufferAfter] using this
  refine ⟨?_, ?_, ?_⟩
  · intro h
    rw [key, Nat.sub_eq_zero_of_le h, List.drop_zero]
  · intro h
    refine ⟨key, ?_⟩
    rw [key, List.length_drop]
    omega
  · rw [key, List.length_drop]
    omega

/-- Witness for C1: a concrete run over capacity 3 retains the last three
bytes, and a run under capacity 10 retains the whole concatenation. -/
theorem buffer_is_capped_suffix_witness :
    bufferAfter 3 [[1, 2], [3, 4, 5]] = [3, 4, 5] ∧
    bufferAfter 10 [[1, 2], [3, 4, 5]] = [1, 2, 3, 4, 5] :=
  ⟨((buffer_is_capped_suffix 3 [[1, 2], [3, 4, 5]]).2.1 (by decide)).1,
   (buffer_is_capped_suffix 10 [[1, 2], [3, 4, 5]]).1 (by decide)⟩


/-! ## The fixed prompt of every parse result -/

/-- Every successful `parseOptions` result carries the hard-coded prompt. -/
lemma parseOptionsL_prompt (t : List Char) (r : ParseResult)
    (h : parseOptionsL t = some r) : r.prompt = "Select option:" := by
  unfold parseOptionsL at h
  split at h
  · exact absurd h (by simp)
  · split at h
    · cases h; rfl
    · split at h
      · cases h; rfl
      · split at h
        · cases h; rfl
        · split at h
          · cases h; rfl
          · split at h
            · cases h; rfl
            · exact absurd h (by simp)

/-- Claim C10: whenever `parseOptions` returns a result, its `prompt` field is
the constant string `Select option:`, independent of the input text and of the
pattern that matched. -/
theorem parse_options_constant_prompt :
    ∀ (t : String) (r : ParseResult),
      parseOptions t = some r → r.prompt = "Select option:" :=
  fun t r h => parseOptionsL_prompt t.data r h

/-- Witness for C10 at the concrete input `Proceed? (y/n)`. -/
theorem parse_options_constant_prompt_witness :
    parseOptions "Proceed? (y/n)" =
      some ⟨"Select option:", [⟨"Yes", "y"⟩, ⟨"No", "n"⟩], "yes-no"⟩ ∧
    (ParseResult.mk "Select option:" [⟨"Yes", "y"⟩, ⟨"No", "n"⟩]
        "yes-no").prompt = "Select option:" :=
  ⟨by decide, parse_options_constant_prompt "Proceed? (y/n)" _ (by decide)⟩

/-! ## Watcher fingerprint behaviour (claims C2 and C3) -/

/-- When `process` emits an event, the stored fingerprint is the hash of the
constant prompt. -/
lemma watcherProcess_emit_fingerprint (s : WatcherState) (d : String) (now : Nat)
    (h : ((watcherProcess s d now).2).isSome = true) :
    ((watcherProcess s d now).1).lastTrigger =
      some (hashPrompt "Select option:") := by
  cases hr : parseOptionsL (List.intercalate ['\n'] (watcherLinesAfter s d)) with
  | none =>
    unfold watcherProcess at h
    rw [hr] at h
    simp at h
  | some r =>
    have hp := parseOptionsL_prompt _ _ hr
    unfold watcherProcess at h ⊢
    rw [hr] at h ⊢
    dsimp only at h ⊢
    rw [hp] at h ⊢
    by_cases hc : s.lastTrigger ≠ some (hashPrompt "Select option:")
    · simp [if_pos hc]
    · simp [if_neg hc] at h

/-- Once the constant fingerprint is held, `process` never emits and never
changes the fingerprint. -/
lemma watcherProcess_suppressed (s : WatcherState) (d : String) (now : Nat)
    (h : s.lastTrigger = some (hashPrompt "Select option:")) :
    (watcherProcess s d now).2 = none ∧
    (watcherProcess s d now).1.lastTrigger = s.lastTrigger := by
  cases hr : parseOptionsL (List.intercalate ['\n'] (watcherLinesAfter s d)) with
  | none =>
    unfold watcherProcess
    rw [hr]
    exact ⟨rfl, rfl⟩
  | some r =>
    have hp := parseOptionsL_prompt _ _ hr
    unfold watcherProcess
    rw [hr]
    dsimp only
    rw [hp]
    have hc : ¬ s.lastTrigger ≠ some (hashPrompt "Select option:") := by
      simp [h]
    simp [if_neg hc]

/-- `process` preserves `maxLines`. -/
lemma watcherProcess_maxLines (s : WatcherState) (d : String) (now : Nat) :
    (watcherProcess s d now).1.maxLines = s.maxLines := by
  unfold watcherProcess
  repeat' split
  all_goals rfl

/-- `feedCount` after the constant fingerprint is held: no events, fingerprint
and `maxLines` kept. -/
lemma feedCount_suppressed (d : String) :
    ∀ (n : Nat) (s : WatcherState),
      s.lastTrigger = some (hashPrompt "Select option:") →
      (feedCount s d n).2 = 0 ∧
      (feedCount s d n).1.lastTrigger = s.lastTrigger ∧
      (feedCount s d n).1.maxLines = s.maxLines := by
  intro n
  induction n with
  | zero => intro s h; exact ⟨rfl, rfl, rfl⟩
  | succ m ih =>
    intro s h
    have hsup := watcherProcess_suppressed s d 0 h
    have hml := watcherProcess_maxLines s d 0
    have ihs := ih (watcherProcess s d 0).1 (hsup.2.trans h)
    simp only [feedCount, hsup.1, Option.isSome_none, Bool.false_eq_true,
      if_false, zero_add]
    exact ⟨ihs.1, ihs.2.1.trans (hsup.2), ihs.2.2.trans hml⟩

/-- Emission happens exactly when the pattern library matches the new window
and the held fingerprint differs from the (constant) fingerprint of the
match. -/
lemma watcherProcess_emits_iff (s : WatcherState) (d : String) (now : Nat) :
    ((watcherProcess s d now).2).isSome = true ↔
      (parseOptionsL (List.intercalate ['\n'] (watcherLinesAfter s d))).isSome
        = true ∧
      s.lastTrigger ≠ some (hashPrompt "Select option:") := by
  cases hr : parseOptionsL (List.intercalate ['\n'] (watcherLinesAfter s d)) with
  | none =>
    unfold watcherProcess
    rw [hr]
    simp
  | some r =>
    have hp := parseOptionsL_prompt _ _ hr
    unfold watcherProcess
    rw [hr]
    dsimp only
    rw [hp]
    by_cases hc : s.lastTrigger ≠ some (hashPrompt "Select option:")
    · simp [if_pos hc, hc]
    · simp only [if_neg hc]
      simp only [not_not] at hc
      simp [hc]

/-- Claim C2 (amended): a trigger event is emitted exactly when the pattern
library matches the rebuilt window and no trigger with the constant
fingerprint is held; since every match carries the constant prompt
`Select option:`, every match has the same fingerprint, so after any emission
the next chunk never emits — two consecutive distinct prompts produce a single
event, not two. -/
theorem watcher_fingerprint_constant_suppression :
    ∀ (s : WatcherState) (c1 c2 : String) (n1 n2 : Nat),
      (((watcherProcess s c1 n1).2).isSome = true ↔
        (parseOptionsL
            (List.intercalate ['\n'] (watcherLinesAfter s c1))).isSome = true ∧
        s.lastTrigger ≠ some (hashPrompt "Select option:")) ∧
      (((watcherProcess s c1 n1).2).isSome = true →
        (watcherProcess (watcherProcess s c1 n1).1 c2 n2).2 = none) := by
  intro s c1 c2 n1 n2
  refine ⟨watcherProcess_emits_iff s c1 n1, fun h => ?_⟩
  exact (watcherProcess_suppressed _ c2 n2
    (watcherProcess_emit_fingerprint s c1 n1 h)).1

/-- Witness for C2: after the yes/no prompt triggers, a textually distinct
numbered prompt in the very next chunk is suppressed. -/
theorem watcher_fingerprint_constant_suppression_witness :
    (watcherProcess (watcherProcess (initWatcher 50) "Proceed? (y/n)" 0).1
      "1. Apply\n2. Skip" 0).2 = none :=
  (watcher_fingerprint_constant_suppression (initWatcher 50) "Proceed? (y/n)"
    "1. Apply\n2. Skip" 0 0).2 (by decide)

/-- Counterexample for C2 as stated: the first chunk emits a yes/no trigger;
the second chunk makes the window match the numbered pattern — a different
prompt with different choices — yet `process` emits nothing, because the
fingerprint hashes the constant prompt field rather than the prompt text. -/
theorem watcher_distinct_prompt_suppressed_cex :
    ((watcherProcess (initWatcher 50) "Proceed? (y/n)" 0).2).isSome = true ∧
    (watcherProcess (watcherProcess (initWatcher 50) "Proceed? (y/n)" 0).1
      "1. Apply\n2. Skip" 0).2 = none ∧
    (parseOptionsL (List.intercalate ['\n']
        (watcherLinesAfter (watcherProcess (initWatcher 50) "Proceed? (y/n)" 0).1
          "1. Apply\n2. Skip"))).map ParseResult.options =
      some [⟨"1", "1"⟩, ⟨"2", "2"⟩] ∧
    ((watcherProcess (initWatcher 50) "Proceed? (y/n)" 0).2).map
        ParseResult.options =
      some [⟨"Yes", "y"⟩, ⟨"No", "n"⟩] := by
  decide

/-- Claim C3: a prompt that triggers on first sight produces exactly one
`options` event over arbitrarily many repeated chunks, and after `reset()` the
identical prompt produces a second event. -/
theorem watcher_single_event_until_reset (p : String) (n : Nat)
    (h : ((watcherProcess (initWatcher 50) p 0).2).isSome = true)
    (hn : 1 ≤ n) :
    (feedCount (initWatcher 50) p n).2 = 1 ∧
    (feedCount (watcherReset (feedCount (initWatcher 50) p n).1) p 1).2 = 1 := by
  obtain ⟨m, rfl⟩ : ∃ m, n = m + 1 := ⟨n - 1, by omega⟩
  have hfp := watcherProcess_emit_fingerprint (initWatcher 50) p 0 h
  have hsup := feedCount_suppressed p m (watcherProcess (initWatcher 50) p 0).1 hfp
  have hml := watcherProcess_maxLines (initWatcher 50) p 0
  have hcount : (feedCount (initWatcher 50) p (m + 1)).2 = 1 := by
    simp only [feedCount, h, if_true]
    omega
  refine ⟨hcount, ?_⟩
  have hml2 : (feedCount (initWatcher 50) p (m + 1)).1.maxLines = 50 := by
    simp only [feedCount]
    rw [hsup.2.2, hml]
    rfl
  have hreset : watcherReset (feedCount (initWatcher 50) p (m + 1)).1 =
      initWatcher 50 := by
    unfold watcherReset
    rw [hml2]
    rfl
  rw [hreset]
  simp [feedCount, h]

/-- Witness for C3: three repeats of the yes/no prompt yield one event, and
one more feed after a reset yields the second. -/
theorem watcher_single_event_until_reset_witness :
    (feedCount (initWatcher 50) "Proceed? (y/n)" 3).2 = 1 ∧
    (feedCount (watcherReset (feedCount (initWatcher 50) "Proceed? (y/n)" 3).1)
      "Proceed? (y/n)" 1).2 = 1 :=
  watcher_single_event_until_reset "Proceed? (y/n)" 3 (by decide) (by decide)


/-! ## Pattern library examples (claim C5) -/

/-- Claim C5: the three documented pattern-library examples.  `Proceed? (y/n)`
yields Yes/No, the two numbered lines yield the two numeric choices, and the
parenthesized-letter menu yields Apply/Reject. -/
theorem parse_options_examples :
    parseOptions "Proceed? (y/n)" =
      some ⟨"Select option:", [⟨"Yes", "y"⟩, ⟨"No", "n"⟩], "yes-no"⟩ ∧
    parseOptions "1. Apply\n2. Skip" =
      some ⟨"Select option:", [⟨"1", "1"⟩, ⟨"2", "2"⟩], "numbered-options"⟩ ∧
    parseOptions "(a)pply (r)eject" =
      some ⟨"Select option:", [⟨"Apply", "a"⟩, ⟨"Reject", "r"⟩],
        "letter-in-parens"⟩ := by
  decide

/-! ## Session start exclusivity (claim C6) -/

/-- Claim C6: starting while a session is active is rejected, not queued.
`startClaude` only appends the error broadcast — the PTY state (running flag,
buffer, exit code, geometry), the watcher and every other field are left
unchanged — and `PTYManager.spawn` itself throws `PTY already running` before
mutating anything. -/
theorem start_while_running_rejected :
    (∀ (s : SrvState) (ok : Bool), s.pty.running = true →
      startClaude s ok =
        { s with broadcasts :=
            s.broadcasts ++ [OutMsg.errorMsg "Claude Code is already running"] }) ∧
    (∀ (p : PTYState) (ok : Bool), p.running = true →
      ptySpawn p ok = (p, some "PTY already running. Call kill() first.")) := by
  constructor
  · intro s ok h
    unfold startClaude
    rw [if_pos h]
  · intro p ok h
    unfold ptySpawn
    rw [if_pos h]

/-- Witness for C6 on a concrete running session. -/
theorem start_while_running_rejected_witness :
    startClaude
        ⟨⟨true, 102400, [], none, true, 120, 40⟩, initWatcher 50, false, [], [],
          false⟩ true =
      { pty := ⟨true, 102400, [], none, true, 120, 40⟩, watcher := initWatcher 50,
        debounceMemory := false,
        broadcasts := [OutMsg.errorMsg "Claude Code is already running"],
        ptyWrites := [], themeSent := false } ∧
    ptySpawn ⟨true, 102400, [], none, true, 120, 40⟩ true =
      (⟨true, 102400, [], none, true, 120, 40⟩,
        some "PTY already running. Call kill() first.") :=
  ⟨start_while_running_rejected.1
      ⟨⟨true, 102400, [], none, true, 120, 40⟩, initWatcher 50, false, [], [],
        false⟩ true rfl,
   start_while_running_rejected.2 ⟨true, 102400, [], none, true, 120, 40⟩ true
      rfl⟩

/-! ## Kill semantics (claim C7) -/

/-- Counterexample for C7 as stated: on a running session, `kill` itself flips
the running flag to false — the flag does not wait for the subprocess's exit
notification. -/
theorem kill_clears_running_immediately_cex :
    (PTYState.running ⟨true, 102400, [], none, true, 120, 40⟩ = true) ∧
    (ptyKill ⟨true, 102400, [], none, true, 120, 40⟩ "SIGTERM").1.running =
      false := by
  decide

/-- Claim C7 (amended): while a session is running, `kill(signal)` sends the
signal and immediately sets the running flag to false, without waiting for the
exit notification; when no live session exists it is a no-op; the exit
notification independently clears the flag and records the exit code. -/
theorem kill_flips_running_immediately :
    (∀ (p : PTYState) (sig : String), p.ptyAlive = true → p.running = true →
      ptyKill p sig = ({ p with running := false }, some sig)) ∧
    (∀ (p : PTYState) (sig : String), (p.ptyAlive && p.running) = false →
      ptyKill p sig = (p, none)) ∧
    (∀ (p : PTYState) (code : Int),
      (ptyExit p code).running = false ∧ (ptyExit p code).exitCode = some code) := by
  refine ⟨?_, ?_, ?_⟩
  · intro p sig ha hr
    unfold ptyKill
    rw [ha, hr]
    rfl
  · intro p sig h
    unfold ptyKill
    rw [h]
    rfl
  · intro p code
    exact ⟨rfl, rfl⟩

/-- Witness for C7's amended statement on concrete states. -/
theorem kill_flips_running_immediately_witness :
    ptyKill ⟨true, 102400, [], none, true, 120, 40⟩ "SIGTERM" =
      (⟨true, 102400, [], none, false, 120, 40⟩, some "SIGTERM") ∧
    ptyKill ⟨false, 102400, [], none, false, 120, 40⟩ "SIGTERM" =
      (⟨false, 102400, [], none, false, 120, 40⟩, none) :=
  ⟨kill_flips_running_immediately.1 ⟨true, 102400, [], none, true, 120, 40⟩
      "SIGTERM" rfl rfl,
   kill_flips_running_immediately.2.1 ⟨false, 102400, [], none, false, 120, 40⟩
      "SIGTERM" rfl⟩

/-! ## Rate limiting, violations and bans (claim C8) -/

/-- Claim C8: a message arriving with the pruned sliding window at the rate
ceiling bumps the violation counter and is silently dropped while the counter
stays below the threshold; on the threshold violation the connection is closed
(4429) and the address banned until `now + BAN_DURATION`; while the ban is
live every connection attempt from the address is rejected (4403); once the
expiry has passed, a connection with a valid credential and a free
per-address window is admitted. -/
theorem rate_limit_escalation_and_ban :
    (∀ (g : AbuseState) (c : ConnState) (ip : String) (now size : Nat),
      size ≤ 65536 →
      MESSAGE_RATE_LIMIT ≤
        (c.messageTimestamps.filter (fun t => now - t < MESSAGE_WINDOW)).length →
      c.violations + 1 < MAX_VIOLATIONS →
      wsMessageStep g c ip now size =
        (g, ⟨c.violations + 1,
             c.messageTimestamps.filter (fun t => now - t < MESSAGE_WINDOW)⟩,
         MsgAction.dropped)) ∧
    (∀ (g : AbuseState) (c : ConnState) (ip : String) (now size : Nat),
      size ≤ 65536 →
      MESSAGE_RATE_LIMIT ≤
        (c.messageTimestamps.filter (fun t => now - t < MESSAGE_WINDOW)).length →
      MAX_VIOLATIONS ≤ c.violations + 1 →
      wsMessageStep g c ip now size =
        ({ g with bannedIps := (ip, now + BAN_DURATION) :: g.bannedIps },
         ⟨c.violations + 1,
          c.messageTimestamps.filter (fun t => now - t < MESSAGE_WINDOW)⟩,
         MsgAction.closed 4429)) ∧
    (∀ (g : AbuseState) (ip : String) (now : Nat) (tokenValid : Bool)
        (expiry : Nat),
      g.bannedIps.lookup ip = some expiry → now < expiry →
      wsConnectionStep g ip now tokenValid = (g, ConnResult.rejected 4403)) ∧
    (∀ (g : AbuseState) (ip : String) (now : Nat) (expiry : Nat),
      g.bannedIps.lookup ip = some expiry → expiry ≤ now →
      (((g.wsConnections.lookup ip).getD []).filter
          (fun t => now - t < WS_WINDOW)).length < WS_RATE_LIMIT →
      wsConnectionStep g ip now true =
        ({ g with wsConnections :=
            (ip, ((g.wsConnections.lookup ip).getD []).filter
                (fun t => now - t < WS_WINDOW) ++ [now]) :: g.wsConnections },
         ConnResult.admitted ⟨0, []⟩)) := by
  refine ⟨?_, ?_, ?_, ?_⟩
  · intro g c ip now size hs hceil hv
    unfold wsMessageStep
    rw [if_neg (by omega), if_pos hceil, if_neg (by simp; omega)]
  · intro g c ip now size hs hceil hv
    unfold wsMessageStep
    rw [if_neg (by omega), if_pos hceil, if_pos (by simpa using hv)]
  · intro g ip now tv expiry hlk hnow
    unfold wsConnectionStep
    rw [hlk]
    simp [hnow]
  · intro g ip now expiry hlk hexp hconn
    unfold wsConnectionStep
    rw [hlk]
    dsimp only
    rw [if_neg (by omega)]
    unfold wsAdmit
    rw [if_neg (by simp)]
    rw [if_neg (by omega)]

/-- Witness for C8: a concrete escalation — 30 recent timestamps put the
window at the ceiling; at four prior violations the fifth closes and bans;
during the ban a reconnect is rejected; at the expiry it is admitted. -/
theorem rate_limit_escalation_and_ban_witness :
    wsMessageStep ⟨[], []⟩ ⟨0, List.replicate 30 0⟩ "1.2.3.4" 500 10 =
      (⟨[], []⟩, ⟨1, List.replicate 30 0⟩, MsgAction.dropped) ∧
    wsMessageStep ⟨[], []⟩ ⟨4, List.replicate 30 0⟩ "1.2.3.4" 500 10 =
      (⟨[("1.2.3.4", 300500)], []⟩, ⟨5, List.replicate 30 0⟩,
       MsgAction.closed 4429) ∧
    wsConnectionStep ⟨[("1.2.3.4", 300500)], []⟩ "1.2.3.4" 1000 true =
      (⟨[("1.2.3.4", 300500)], []⟩, ConnResult.rejected 4403) ∧
    wsConnectionStep ⟨[("1.2.3.4", 300500)], []⟩ "1.2.3.4" 300500 true =
      (⟨[("1.2.3.4", 300500)], [("1.2.3.4", [300500])]⟩,
       ConnResult.admitted ⟨0, []⟩) := by
  refine ⟨?_, ?_, ?_, ?_⟩
  · have := rate_limit_escalation_and_ban.1 ⟨[], []⟩ ⟨0, List.replicate 30 0⟩
      "1.2.3.4" 500 10 (by decide) (by decide) (by decide)
    simpa using this
  · have := rate_limit_escalation_and_ban.2.1 ⟨[], []⟩ ⟨4, List.replicate 30 0⟩
      "1.2.3.4" 500 10 (by decide) (by decide) (by decide)
    simpa using this
  · exact rate_limit_escalation_and_ban.2.2.1 ⟨[("1.2.3.4", 300500)], []⟩
      "1.2.3.4" 1000 true 300500 (by decide) (by decide)
  · have := rate_limit_escalation_and_ban.2.2.2 ⟨[("1.2.3.4", 300500)], []⟩
      "1.2.3.4" 300500 300500 (by decide) (by decide) (by decide)
    simpa using this

/-! ## Trigger clearing on input and exit (claim C9) -/

/-- Counterexample for C9 as stated: the subprocess exit notification does not
clear the held trigger — the watcher state, fingerprint included, is untouched
by the exit handlers, even though the session stops running. -/
theorem exit_leaves_trigger_held_cex :
    (onPtyExit
        ⟨⟨true, 102400, [], none, true, 120, 40⟩,
         ⟨50, [['a']], some "-5524989f", 7⟩, true, [], [], true⟩ 0 none).watcher =
      ⟨50, [['a']], some "-5524989f", 7⟩ ∧
    (onPtyExit
        ⟨⟨true, 102400, [], none, true, 120, 40⟩,
         ⟨50, [['a']], some "-5524989f", 7⟩, true, [], [], true⟩ 0
        none).pty.running = false := by
  decide

/-- Claim C9 (amended): while the session runs, any input whose data contains
a carriage return resets the Trigger Detector and broadcasts `hideOptions`,
and every input clears the notification debounce memory; the subprocess exit,
however, leaves the held trigger in place. -/
theorem input_cr_resets_trigger :
    (∀ (s : SrvState) (data : String), s.pty.running = true →
      data.data.contains '\r' = true →
      (handleInput s data).watcher = watcherReset s.watcher ∧
      (handleInput s data).broadcasts = s.broadcasts ++ [OutMsg.hideOptions] ∧
      (handleInput s data).debounceMemory = false) ∧
    (∀ (s : SrvState) (data : String), s.pty.running = true →
      (handleInput s data).debounceMemory = false) ∧
    (∀ (s : SrvState) (code : Int) (sig : Option Nat),
      (onPtyExit s code sig).watcher = s.watcher) := by
  refine ⟨?_, ?_, ?_⟩
  · intro s data hr hcr
    unfold handleInput
    rw [if_pos hr]
    dsimp only
    rw [if_pos hcr]
    exact ⟨rfl, rfl, rfl⟩
  · intro s data hr
    unfold handleInput
    rw [if_pos hr]
  · intro s code sig
    rfl

/-- Witness for C9's amended statement: a concrete carriage-return submission
while running. -/
theorem input_cr_resets_trigger_witness :
    (handleInput
        ⟨⟨true, 102400, [], none, true, 120, 40⟩,
         ⟨50, [['a']], some "-5524989f", 7⟩, true, [], [], false⟩ "y\r").watcher =
      watcherReset ⟨50, [['a']], some "-5524989f", 7⟩ ∧
    (handleInput
        ⟨⟨true, 102400, [], none, true, 120, 40⟩,
         ⟨50, [['a']], some "-5524989f", 7⟩, true, [], [], false⟩
        "y\r").broadcasts = [OutMsg.hideOptions] ∧
    (handleInput
        ⟨⟨true, 102400, [], none, true, 120, 40⟩,
         ⟨50, [['a']], some "-5524989f", 7⟩, true, [], [], false⟩
        "y\r").debounceMemory = false := by
  have := input_cr_resets_trigger.1
    ⟨⟨true, 102400, [], none, true, 120, 40⟩,
     ⟨50, [['a']], some "-5524989f", 7⟩, true, [], [], false⟩ "y\r" rfl
    (by decide)
  simpa using this


/-! ## The numbered-list matcher (claim C4) -/

/-- Dropping the length of a `takeWhile` run is dropping the run. -/
lemma drop_length_takeWhile (p : Char → Bool) (l : List Char) :
    l.drop (l.takeWhile p).length = l.dropWhile p := by
  induction l with
  | nil => rfl
  | cons c t ih =>
    simp only [List.takeWhile, List.dropWhile]
    cases h : p c <;> simp [h, ih]

/-- A successful `tryNumAt` decomposes its input as nonempty digits, a
period, nonempty whitespace, an uppercase letter, and a remainder. -/
lemma tryNumAt_decomp (l d : List Char) (h : tryNumAt l = some d) :
    d ≠ [] ∧ d.all Char.isDigit = true ∧
    ∃ ws u rest, ws ≠ [] ∧ ws.all isSpaceJS = true ∧ u.isUpper = true ∧
      l = d ++ '.' :: (ws ++ u :: rest) := by
  unfold tryNumAt at h
  split at h
  · exact absurd h (by simp)
  · rename_i hne
    split at h
    · rename_i r2 heq
      split at h
      · exact absurd h (by simp)
      · rename_i hws
        split at h
        · rename_i u rest heq2
          split at h
          · rename_i hu
            have hd : l.takeWhile Char.isDigit = d := Option.some.inj h
            refine ⟨?_, ?_, r2.takeWhile isSpaceJS, u, rest, ?_, ?_, hu, ?_⟩
            · rw [← hd]
              simpa using hne
            · rw [← hd]
              exact List.all_takeWhile
            · simpa using hws
            · exact List.all_takeWhile
            · have hl : l = l.takeWhile Char.isDigit ++ ('.' :: r2) := by
                conv_lhs => rw [← List.takeWhile_append_dropWhile
                  (p := Char.isDigit) (l := l)]
                rw [← drop_length_takeWhile Char.isDigit l, heq]
              have hr2 : r2 = r2.takeWhile isSpaceJS ++ (u :: rest) := by
                conv_lhs => rw [← List.takeWhile_append_dropWhile
                  (p := isSpaceJS) (l := r2)]
                rw [← drop_length_takeWhile isSpaceJS r2, heq2]
              rw [hl, hd, ← hr2]
          · exact absurd h (by simp)
        · exact absurd h (by simp)
    · exact absurd h (by simp)

/-- `numFirstMatch` returns the match at the least starting index. -/
lemma numFirstMatch_first :
    ∀ (line d : List Char), numFirstMatch line = some d →
      ∃ i, tryNumAt (line.drop i) = some d ∧
        ∀ j < i, tryNumAt (line.drop j) = none := by
  intro line
  induction line with
  | nil => intro d h; simp [numFirstMatch] at h
  | cons c t ih =>
    intro d h
    unfold numFirstMatch at h
    split at h
    · rename_i d' heq
      cases h
      exact ⟨0, by simpa using heq, by omega⟩
    · rename_i heq
      obtain ⟨i, hi, hlt⟩ := ih d h
      refine ⟨i + 1, by simpa using hi, ?_⟩
      intro j hj
      cases j with
      | zero => simpa using heq
      | succ j' => simpa using hlt j' (by omega)

/-- Fold lemma for `collectNums`: every collected number is some line's first
match and lies in range. -/
lemma collectNums_go_mem :
    ∀ (lines : List (List Char)) (acc : List (List Char)) (x : List Char),
      x ∈ lines.foldl
        (fun acc line =>
          match numFirstMatch line with
          | some num =>
            if !acc.contains num && 1 ≤ digitsToNat num && digitsToNat num ≤ 20
            then acc ++ [num]
            else acc
          | none => acc) acc →
      x ∈ acc ∨ ∃ line ∈ lines, numFirstMatch line = some x ∧
        1 ≤ digitsToNat x ∧ digitsToNat x ≤ 20 := by
  intro lines
  induction lines with
  | nil => intro acc x h; exact Or.inl h
  | cons l ls ih =>
    intro acc x h
    simp only [List.foldl_cons] at h
    rcases ih _ x h with hacc | ⟨line, hline, hm, h1, h2⟩
    · split at hacc
      · rename_i num hm
        split at hacc
        · rename_i hg
          rcases List.mem_append.mp hacc with hin | hx
          · exact Or.inl hin
          · have hx' : x = num := by simpa using hx
            subst hx'
            simp only [Bool.and_eq_true, decide_eq_true_eq] at hg
            exact Or.inr ⟨l, List.mem_cons_self _ _, hm, hg.1.2, hg.2⟩
        · exact Or.inl hacc
      · exact Or.inl hacc
    · exact Or.inr ⟨line, List.mem_cons_of_mem _ hline, hm, h1, h2⟩

/-- Fold lemma for `collectNums`: the accumulator stays duplicate-free. -/
lemma collectNums_go_nodup :
    ∀ (lines : List (List Char)) (acc : List (List Char)), acc.Nodup →
      (lines.foldl
        (fun acc line =>
          match numFirstMatch line with
          | some num =>
            if !acc.contains num && 1 ≤ digitsToNat num && digitsToNat num ≤ 20
            then acc ++ [num]
            else acc
          | none => acc) acc).Nodup := by
  intro lines
  induction lines with
  | nil => intro acc h; exact h
  | cons l ls ih =>
    intro acc h
    simp only [List.foldl_cons]
    apply ih
    split
    · rename_i num hm
      split
      · rename_i hg
        simp only [Bool.and_eq_true, Bool.not_eq_true'] at hg
        have hnot : num ∉ acc := by
          intro hmem
          have hc := hg.1.1
          simp only [List.contains_eq_any_beq] at hc
          have : acc.any (fun y => num == y) = true := by
            simp only [List.any_eq_true]
            exact ⟨num, hmem, by simp⟩
          rw [hc] at this
          exact Bool.false_ne_true this
        simp [List.nodup_append, h, hnot]
      · exact h
    · exact h

/-- Every collected number is some line's first match with value in 1..20. -/
lemma collectNums_mem (lines : List (List Char)) (x : List Char)
    (h : x ∈ collectNums lines) :
    ∃ line ∈ lines, numFirstMatch line = some x ∧
      1 ≤ digitsToNat x ∧ digitsToNat x ≤ 20 := by
  rcases collectNums_go_mem lines [] x h with h0 | h1
  · simp at h0
  · exact h1

/-- `collectNums` never collects a number twice. -/
lemma collectNums_nodup (lines : List (List Char)) :
    (collectNums lines).Nodup :=
  collectNums_go_nodup lines [] List.nodup_nil

/-- `insertByVal` permutes to a `cons`. -/
lemma insertByVal_perm (x : List Char) :
    ∀ l, List.Perm (insertByVal x l) (x :: l) := by
  intro l
  induction l with
  | nil => exact List.Perm.refl _
  | cons y ys ih =>
    unfold insertByVal
    split
    · exact (ih.cons y).trans (List.Perm.swap x y ys)
    · exact List.Perm.refl _

/-- `insertByVal` preserves sortedness by numeric value. -/
lemma insertByVal_sorted (x : List Char) :
    ∀ l, l.Pairwise (fun a b => digitsToNat a ≤ digitsToNat b) →
      (insertByVal x l).Pairwise (fun a b => digitsToNat a ≤ digitsToNat b) := by
  intro l
  induction l with
  | nil => intro _; simp [insertByVal]
  | cons y ys ih =>
    intro hp
    rw [List.pairwise_cons] at hp
    unfold insertByVal
    split
    · rename_i hle
      rw [List.pairwise_cons]
      refine ⟨?_, ih hp.2⟩
      intro z hz
      rcases List.mem_cons.mp ((insertByVal_perm x ys).mem_iff.mp hz) with rfl | hz'
      · exact hle
      · exact hp.1 z hz'
    · rename_i hgt
      have hxy : digitsToNat x ≤ digitsToNat y := le_of_not_le hgt
      rw [List.pairwise_cons]
      refine ⟨?_, List.pairwise_cons.mpr hp⟩
      intro z hz
      rcases List.mem_cons.mp hz with rfl | hz'
      · exact hxy
      · exact le_trans hxy (hp.1 z hz')

/-- The stable sort permutes its input. -/
lemma sortNums_go_perm :
    ∀ (l acc : List (List Char)),
      List.Perm (l.foldl (fun acc x => insertByVal x acc) acc) (acc ++ l) := by
  intro l
  induction l with
  | nil => intro acc; simp
  | cons x xs ih =>
    intro acc
    simp only [List.foldl_cons]
    refine (ih _).trans ?_
    refine ((insertByVal_perm x acc).append_right xs).trans ?_
    exact List.perm_middle.symm

lemma sortNums_perm (l : List (List Char)) : List.Perm (sortNums l) l := by
  simpa [sortNums] using sortNums_go_perm l []

/-- The stable sort sorts by numeric value. -/
lemma sortNums_go_sorted :
    ∀ (l acc : List (List Char)),
      acc.Pairwise (fun a b => digitsToNat a ≤ digitsToNat b) →
      (l.foldl (fun acc x => insertByVal x acc) acc).Pairwise
        (fun a b => digitsToNat a ≤ digitsToNat b) := by
  intro l
  induction l with
  | nil => intro acc h; exact h
  | cons x xs ih =>
    intro acc h
    simp only [List.foldl_cons]
    exact ih _ (insertByVal_sorted x acc h)

lemma sortNums_sorted (l : List (List Char)) :
    (sortNums l).Pairwise (fun a b => digitsToNat a ≤ digitsToNat b) :=
  sortNums_go_sorted l [] List.Pairwise.nil

/-- Counterexample for C4 as stated: on lines with no period after the number
the code's matcher finds nothing while the claim's described matcher
qualifies; on lines where the number is not leading but has its period the
code's matcher qualifies while the described one finds nothing. -/
theorem numbered_matcher_cex :
    numberedExtract "1 Apply\n2 Skip".data = none ∧
    claimNumberedExtract "1 Apply\n2 Skip".data =
      some [⟨"1", "1"⟩, ⟨"2", "2"⟩] ∧
    numberedExtract "see 1. Apply\nsee 2. Skip".data =
      some [⟨"1", "1"⟩, ⟨"2", "2"⟩] ∧
    claimNumberedExtract "see 1. Apply\nsee 2. Skip".data = none := by
  decide

/-- Claim C4 (amended): the numbered matcher scans each line for its first
occurrence — anywhere in the line — of an integer followed by a period,
whitespace and an uppercase letter; it collects the distinct number texts
whose value lies in 1..20, sorts them ascending by value, gives each number
text as both label and submitted value, and qualifies exactly when at least
two distinct numbers were found. -/
theorem numbered_matcher_amended (t : List Char) :
    ((numberedExtract t).isSome = true ↔
      2 ≤ (collectNums (List.splitOn '\n' t)).length) ∧
    (∀ opts, numberedExtract t = some opts →
      2 ≤ opts.length ∧
      (∀ o ∈ opts, o.label = o.value) ∧
      (opts.map Choice.value).Nodup ∧
      opts.Pairwise
        (fun a b => digitsToNat a.value.data ≤ digitsToNat b.value.data) ∧
      (∀ o ∈ opts, ∃ line ∈ List.splitOn '\n' t,
        numFirstMatch line = some o.value.data ∧
        1 ≤ digitsToNat o.value.data ∧ digitsToNat o.value.data ≤ 20)) ∧
    (∀ line d, numFirstMatch line = some d →
      ∃ i, tryNumAt (line.drop i) = some d ∧
        ∀ j < i, tryNumAt (line.drop j) = none) ∧
    (∀ l d, tryNumAt l = some d →
      d ≠ [] ∧ d.all Char.isDigit = true ∧
      ∃ ws u rest, ws ≠ [] ∧ ws.all isSpaceJS = true ∧ u.isUpper = true ∧
        l = d ++ '.' :: (ws ++ u :: rest)) := by
  have hlen : ((sortNums (collectNums (List.splitOn '\n' t))).map
      (fun num => Choice.mk num.asString num.asString)).length =
      (collectNums (List.splitOn '\n' t)).length := by
    rw [List.length_map, (sortNums_perm _).length_eq]
  refine ⟨?_, ?_, numFirstMatch_first, fun l d h => tryNumAt_decomp l d h⟩
  · unfold numberedExtract
    split
    · rename_i hcond
      rw [hlen] at hcond
      simp [hcond]
    · rename_i hcond
      rw [hlen] at hcond
      simp [hcond]
  · intro opts h
    unfold numberedExtract at h
    split at h
    · rename_i hcond
      have hopts : opts = (sortNums (collectNums (List.splitOn '\n' t))).map
          (fun num => Choice.mk num.asString num.asString) :=
        (Option.some.inj h).symm
      subst hopts
      refine ⟨hcond, ?_, ?_, ?_, ?_⟩
      · intro o ho
        rcases List.mem_map.mp ho with ⟨num, _, rfl⟩
        rfl
      · rw [List.map_map]
        have hinj : Function.Injective
            (Choice.value ∘ fun num : List Char =>
              Choice.mk num.asString num.asString) := by
          intro a b hab
          have : a.asString = b.asString := hab
          have := congrArg String.data this
          simpa using this
        exact ((sortNums_perm _).nodup_iff.mpr (collectNums_nodup _)).map hinj
      · exact (sortNums_sorted _).map _ (fun a b hab => hab)
      · intro o ho
        rcases List.mem_map.mp ho with ⟨num, hnum, rfl⟩
        have hmem : num ∈ collectNums (List.splitOn '\n' t) :=
          (sortNums_perm _).mem_iff.mp hnum
        rcases collectNums_mem _ _ hmem with ⟨line, hline, hfm, hlo, hhi⟩
        exact ⟨line, hline, hfm, hlo, hhi⟩
    · exact absurd h (by simp)

/-- Witness for C4's amended statement: the two-line numbered menu qualifies
with label-equals-value choices, and a non-leading but period-bearing match is
found at its exact first index. -/
theorem numbered_matcher_amended_witness :
    (∀ o ∈ [Choice.mk "1" "1", Choice.mk "2" "2"], o.label = o.value) ∧
    (∃ i, tryNumAt (List.drop i "see 12. Apply".data) = some ['1', '2'] ∧
      ∀ j < i, tryNumAt (List.drop j "see 12. Apply".data) = none) :=
  ⟨((numbered_matcher_amended "1. Apply\n2. Skip".data).2.1
      [Choice.mk "1" "1", Choice.mk "2" "2"] (by decide)).2.1,
   (numbered_matcher_amended []).2.2.1 "see 12. Apply".data ['1', '2']
      (by decide)⟩


end OnClaude
